import Mathlib

/-!
Verification of the connection-coordination core of a multi-worker WebSocket
service (connection manager, broadcast relay, shutdown drain loop, lifecycle).

Shallow embedding conventions:
* a socket handle is a `Nat` (Python keys the registry by object identity);
* a connection identifier is a `Nat` drawn from a monotone counter `nextId`,
  modelling the freshness of the `worker_id:uuid4` strings generated at
  registration time;
* the Python `dict` from socket to identifier is an association list mutated
  only through `dictInsert` / `dictErase` (Python dict semantics: assignment
  replaces in place, `pop` removes the unique entry);
* the Redis set held under the connection-set key is a duplicate-free `List`
  mutated through `sadd` / `srem`; its length is `SCARD`;
* `async` suspension points carry no concurrency here: in the source every
  registry mutation happens on one event loop, so each manager method is
  embedded as a pure state transformer, and the Redis calls a method performs
  are additionally exposed as an explicit trace where a claim needs them.
-/

namespace WsShutdown

/-- Lookup in the socket-to-identifier mapping (Python `dict.get`). -/
def dictFind : List (Nat × Nat) → Nat → Option Nat
  | [], _ => none
  | (k', v) :: rest, k => if k' = k then some v else dictFind rest k

/-- Assignment `d[k] = v` in the mapping: replaces the entry in place if the
key exists, otherwise appends (Python dict insertion order). -/
def dictInsert : List (Nat × Nat) → Nat → Nat → List (Nat × Nat)
  | [], k, v => [(k, v)]
  | (k', v') :: rest, k, v =>
      if k' = k then (k, v) :: rest else (k', v') :: dictInsert rest k v

/-- Removal `d.pop(k, None)`'s effect on the mapping: drops the first entry
whose key is `k` (the unique one, since dict keys never repeat). -/
def dictErase : List (Nat × Nat) → Nat → List (Nat × Nat)
  | [], _ => []
  | (k', v') :: rest, k => if k' = k then rest else (k', v') :: dictErase rest k

/-- Redis `SADD`: set-add of one identifier. -/
def sadd (r : List Nat) (i : Nat) : List Nat :=
  if i ∈ r then r else r ++ [i]

/-- Redis calls a `ConnectionManager` method can issue against the shared
store (the connection-set key is fixed, so it is left implicit). -/
inductive RedisCall where
  | scard
  | saddId (i : Nat)
  | sremId (i : Nat)
  | delKey
  deriving DecidableEq

/-- State of one worker's `ConnectionManager` together with the content of
the Redis connection-set key it mirrors into
(`src/src/app/core/connection_manager.py`):
`connections` is `self._connections` (connect order), `ws_to_id` is
`self._ws_to_id`, `redis` is the member list of the Redis set, and `nextId`
is the fresh-identifier source standing in for `uuid4`. -/
structure ManagerState where
  connections : List Nat
  ws_to_id : List (Nat × Nat)
  redis : List Nat
  nextId : Nat
  deriving DecidableEq

/-- Manager state right after `ConnectionManager.__init__` with an empty
connection-set key. -/
def initState : ManagerState := ⟨[], [], [], 0⟩

/-- `ConnectionManager.local_active_count` (line 41): `len(self._connections)`. -/
def local_active_count (s : ManagerState) : Nat :=
  s.connections.length

/-- `ConnectionManager.global_active_count` (line 49): `SCARD` of the
connection-set key. -/
def global_active_count (s : ManagerState) : Nat :=
  s.redis.length

/-- `ConnectionManager.connect` (lines 62-74): generate a fresh identifier,
append the socket to `_connections`, bind it in `_ws_to_id`, `SADD` the
identifier.  The trailing `global_active_count` call is log-only and does not
change state.  The socket-level `accept` is delegated to the transport. -/
def connect (s : ManagerState) (ws : Nat) : ManagerState :=
  { connections := s.connections ++ [ws]
    ws_to_id := dictInsert s.ws_to_id ws s.nextId
    redis := sadd s.redis s.nextId
    nextId := s.nextId + 1 }

/-- `ConnectionManager.disconnect` (lines 86-98), instrumented with the list
of Redis calls it issues, in order: `pop` the mapping entry, remove the
socket from `_connections` if present, `SREM` the identifier if one was
bound, then the `SCARD` performed by the log-only `global_active_count`
call at line 94 (issued on every path, including the unknown-socket path). -/
def disconnectT (s : ManagerState) (ws : Nat) : ManagerState × List RedisCall :=
  match dictFind s.ws_to_id ws with
  | some cid =>
      ({ connections := s.connections.erase ws
         ws_to_id := dictErase s.ws_to_id ws
         redis := s.redis.erase cid
         nextId := s.nextId }, [RedisCall.sremId cid, RedisCall.scard])
  | none =>
      ({ connections := s.connections.erase ws
         ws_to_id := dictErase s.ws_to_id ws
         redis := s.redis
         nextId := s.nextId }, [RedisCall.scard])

/-- State effect of `ConnectionManager.disconnect`. -/
def disconnect (s : ManagerState) (ws : Nat) : ManagerState :=
  (disconnectT s ws).1

/-- Outcome of `websocket.send_text` for one socket during a broadcast,
naming the exception classes `broadcast_local` catches (lines 115-125);
`sent` is the non-raising outcome. -/
inductive SendResult where
  | sent
  | wsDisconnect
  | connectionReset
  | brokenPipe
  | runtimeError
  deriving DecidableEq

/-- One iteration body of the `broadcast_local` loop for socket `ws`: a
successful send leaves the registries alone, every caught exception class
triggers `disconnect` on that socket (lines 112-125). -/
def bcastStep (fate : Nat → SendResult) (s : ManagerState) (ws : Nat) : ManagerState :=
  match fate ws with
  | SendResult.sent => s
  | SendResult.wsDisconnect => disconnect s ws
  | SendResult.connectionReset => disconnect s ws
  | SendResult.brokenPipe => disconnect s ws
  | SendResult.runtimeError => disconnect s ws

/-- The `for ws in list(self._connections)` loop of `broadcast_local` over an
already-taken snapshot, returning the final state together with the list of
sockets a send was attempted on, in iteration order. -/
def broadcastGoT (fate : Nat → SendResult) : List Nat → ManagerState → ManagerState × List Nat
  | [], s => (s, [])
  | ws :: rest, s =>
      ((broadcastGoT fate rest (bcastStep fate s ws)).1,
       ws :: (broadcastGoT fate rest (bcastStep fate s ws)).2)

/-- `ConnectionManager.broadcast_local` (lines 100-126): iterate a snapshot
of `_connections` taken at loop entry.  `fate` gives each socket's send
outcome; the message text itself never influences the registries. -/
def broadcast_local (fate : Nat → SendResult) (s : ManagerState) : ManagerState × List Nat :=
  broadcastGoT fate s.connections s

/-- One call into the `ConnectionManager` API, for reasoning about call
sequences; a broadcast is identified by the send outcome it produces on each
socket. -/
inductive Op where
  | conn (ws : Nat)
  | disc (ws : Nat)
  | bcast (fate : Nat → SendResult)

/-- Execute a sequence of manager calls. -/
def run : List Op → ManagerState → ManagerState
  | [], s => s
  | Op.conn ws :: rest, s => run rest (connect s ws)
  | Op.disc ws :: rest, s => run rest (disconnect s ws)
  | Op.bcast fate :: rest, s => run rest ((broadcastGoT fate s.connections s).1)

/-- A call sequence in which every `connect` targets a socket not currently
registered in this worker (the discipline the WebSocket endpoint follows:
it calls `connect` once per fresh socket). -/
def wfTraceB : List Op → ManagerState → Bool
  | [], _ => true
  | Op.conn ws :: rest, s =>
      !(decide (ws ∈ s.connections)) && wfTraceB rest (connect s ws)
  | Op.disc ws :: rest, s => wfTraceB rest (disconnect s ws)
  | Op.bcast fate :: rest, s => wfTraceB rest ((broadcastGoT fate s.connections s).1)

/-- A call sequence containing no broadcast. -/
def noBcastB : List Op → Bool
  | [] => true
  | Op.conn _ :: rest => noBcastB rest
  | Op.disc _ :: rest => noBcastB rest
  | Op.bcast _ :: _ => false

/-- Ghost bookkeeping for counting: the set of sockets that have been
connected and not yet disconnected after a call sequence. -/
def liveSet : List Op → Finset Nat → Finset Nat
  | [], A => A
  | Op.conn ws :: rest, A => liveSet rest (insert ws A)
  | Op.disc ws :: rest, A => liveSet rest (A.erase ws)
  | Op.bcast _ :: rest, A => liveSet rest A

/-- The spec's Local Registry invariant, in bounded (decidable) form: every
socket in the ordered collection has a mapping entry, and every mapping entry
names a socket in the ordered collection. -/
def localInv (s : ManagerState) : Prop :=
  (∀ ws ∈ s.connections, (dictFind s.ws_to_id ws).isSome = true) ∧
  (∀ p ∈ s.ws_to_id, p.1 ∈ s.connections)

instance localInvDecidable (s : ManagerState) : Decidable (localInv s) := by
  unfold localInv
  infer_instance

/-- Structural tidiness every state reachable by the endpoint's discipline
enjoys: no duplicate sockets in the ordered collection, no duplicate keys in
the mapping, no duplicate identifiers in the Redis set. -/
def tidy (s : ManagerState) : Prop :=
  s.connections.Nodup ∧ (s.ws_to_id.map Prod.fst).Nodup ∧ s.redis.Nodup

/-- `tidy` together with the Local Registry invariant. -/
def regInv (s : ManagerState) : Prop :=
  s.connections.Nodup ∧ (s.ws_to_id.map Prod.fst).Nodup ∧ localInv s

/-- Exit of the `_wait_for_global_shutdown` drain loop
(`src/src/app/core/lifecycle.py` lines 158-182): either the global count
reached zero (normal drain, the `break` at line 167) or the deadline passed
with a nonzero count (forced path, the `break` at line 174).  `iters` is the
number of completed log-interval waits before the final query. -/
inductive DrainExit where
  | drained (iters : Nat)
  | forced (remaining : Nat) (iters : Nat)
  deriving DecidableEq

/-- Log severity used when the drain loop exits: line 163 logs the drained
path at info, line 170 logs the forced path at warning; no path raises. -/
inductive LogLevel where
  | info
  | warning
  | error
  deriving DecidableEq

/-- Severity of the message the drain loop emits on exit. -/
def drainExitLog : DrainExit → LogLevel
  | DrainExit.drained _ => LogLevel.info
  | DrainExit.forced _ _ => LogLevel.warning

/-- The drain loop of `_wait_for_global_shutdown`, fuelled.  `counts k` is
the value `global_active_count()` returns at the `k`-th query; since each
iteration ends in `asyncio.sleep(interval)`, the `k`-th query happens
`k * interval` seconds after `start`, so the code's `now >= deadline` test is
`timeout ≤ k * interval`.  The checks appear in source order: zero-count
first (line 162), deadline second (line 169).  `none` means the fuel ran out
before the loop exited; the termination theorem shows sufficient fuel is
computable from `timeout` and `interval`. -/
def drainLoopF (counts : Nat → Nat) (timeout interval : Nat) : Nat → Nat → Option DrainExit
  | 0, _ => none
  | fuel + 1, k =>
      if counts k = 0 then some (DrainExit.drained k)
      else if timeout ≤ k * interval then some (DrainExit.forced (counts k) k)
      else drainLoopF counts timeout interval fuel (k + 1)

/-- The shutdown steps `shutdown_lifespan` performs after the drain loop
(lines 102-105), in order. -/
inductive ShutdownStep where
  | setStopEvent
  | awaitListener
  | closePubsub
  | closeRedis
  deriving DecidableEq

/-- The fixed post-drain step sequence of `shutdown_lifespan`. -/
def shutdownSteps : List ShutdownStep :=
  [ShutdownStep.setStopEvent, ShutdownStep.awaitListener,
   ShutdownStep.closePubsub, ShutdownStep.closeRedis]

/-- `shutdown_lifespan` (lines 87-107): run the drain loop, then perform the
remaining steps unconditionally, whichever way the drain exited.  The fuel
passed to the drain loop is the bound the termination theorem certifies. -/
def shutdown_lifespan (counts : Nat → Nat) (timeout interval : Nat) :
    Option (DrainExit × List ShutdownStep) :=
  (drainLoopF counts timeout interval (timeout / interval + 2) 0).map
    (fun r => (r, shutdownSteps))

/-- `setup_lifespan`'s effect on manager-visible state (lines 59-70): the
connection-set key is deleted (line 63) before the `ConnectionManager` is
constructed (line 65), whatever stale identifiers the key held. -/
def redisDelete (_prior : List Nat) : List Nat := []

/-- Manager state published by startup, given the stale content the
connection-set key had before this run. -/
def setup_lifespan (stale : List Nat) : ManagerState :=
  { connections := []
    ws_to_id := []
    redis := redisDelete stale
    nextId := 0 }

/-- The `_broadcast_listener` loop (lines 130-139), fuelled.  Iteration `i`
first checks the stop event; if it is not set, it polls once with a bounded
wait: `polls i = none` is a poll timeout (the `continue`), `polls i = some m`
is a received message, whose payload is forwarded to `broadcast_local`
unchanged (`str` on an already-decoded payload is the identity; payloads are
numbered opaquely here).  The returned list is the sequence of payloads
forwarded to `broadcast_local`, in order; `none` means the fuel ran out with
the loop still running. -/
def listenerLoop (stop : Nat → Bool) (polls : Nat → Option Nat) : Nat → Nat → Option (List Nat)
  | 0, _ => none
  | fuel + 1, i =>
      if stop i then some []
      else
        match polls i with
        | none => listenerLoop stop polls fuel (i + 1)
        | some m => (listenerLoop stop polls fuel (i + 1)).map (fun rest => m :: rest)

/-- Response of the `health` endpoint (`src/src/app/api/routes.py` lines
83-115).  `ping` is the outcome of `redis.ping()` (`none` = raises,
`some b` = returns, with truthiness `b`); `scard` is the outcome of the
`manager.global_active_count()` call at line 105 (`none` = raises). -/
inductive HealthResult where
  | ok (globalCount : Nat)
  | degraded (globalCount : Nat)
  | error
  deriving DecidableEq

/-- The `health` endpoint body: the `try` at lines 99-103 catches any ping
failure and leaves `redis_ok = False`; the `global_active_count()` call at
line 105 sits outside every `try`, so its failure escapes the endpoint
(`HealthResult.error`); otherwise status is `ok` or `degraded` by `redis_ok`
(line 107). -/
def health (ping : Option Bool) (scard : Option Nat) : HealthResult :=
  let redisOk := match ping with
    | some b => b
    | none => false
  match scard with
  | none => HealthResult.error
  | some n => if redisOk then HealthResult.ok n else HealthResult.degraded n

/-! ### Association-list (Python dict) lemmas -/

theorem dictFind_insert_self (d : List (Nat × Nat)) (k v : Nat) :
    dictFind (dictInsert d k v) k = some v := by
  induction d with
  | nil => simp [dictInsert, dictFind]
  | cons p rest ih =>
      obtain ⟨k', v'⟩ := p
      by_cases h : k' = k
      · simp [dictInsert, dictFind, h]
      · simp [dictInsert, dictFind, h, ih]

theorem dictFind_insert_ne (d : List (Nat × Nat)) (k v x : Nat) (h : x ≠ k) :
    dictFind (dictInsert d k v) x = dictFind d x := by
  induction d with
  | nil => simp [dictInsert, dictFind, Ne.symm h]
  | cons p rest ih =>
      obtain ⟨k', v'⟩ := p
      by_cases hk : k' = k
      · simp [dictInsert, dictFind, hk, Ne.symm h]
      · simp [dictInsert, dictFind, hk, ih]

theorem dictFind_erase_ne (d : List (Nat × Nat)) (k x : Nat) (h : x ≠ k) :
    dictFind (dictErase d k) x = dictFind d x := by
  induction d with
  | nil => simp [dictErase]
  | cons p rest ih =>
      obtain ⟨k', v'⟩ := p
      by_cases hk : k' = k
      · simp [dictErase, dictFind, hk, Ne.symm h]
      · simp [dictErase, dictFind, hk, ih]

theorem dictFind_eq_none_iff (d : List (Nat × Nat)) (k : Nat) :
    dictFind d k = none ↔ ∀ p ∈ d, p.1 ≠ k := by
  induction d with
  | nil => simp [dictFind]
  | cons p rest ih =>
      obtain ⟨k', v'⟩ := p
      by_cases h : k' = k
      · simp [dictFind, h]
      · simp [dictFind, h, ih]

theorem dictErase_of_none (d : List (Nat × Nat)) (k : Nat)
    (h : dictFind d k = none) : dictErase d k = d := by
  induction d with
  | nil => simp [dictErase]
  | cons p rest ih =>
      obtain ⟨k', v'⟩ := p
      by_cases hk : k' = k
      · simp [dictFind, hk] at h
      · simp [dictFind, hk] at h
        simp [dictErase, hk, ih h]

theorem dictFind_erase_self (d : List (Nat × Nat)) (k : Nat)
    (h : (d.map Prod.fst).Nodup) : dictFind (dictErase d k) k = none := by
  induction d with
  | nil => simp [dictErase, dictFind]
  | cons p rest ih =>
      obtain ⟨k', v'⟩ := p
      simp only [List.map_cons, List.nodup_cons] at h
      by_cases hk : k' = k
      · subst hk
        rw [dictErase, if_pos rfl, dictFind_eq_none_iff]
        intro q hq hq1
        exact h.1 (hq1 ▸ List.mem_map_of_mem Prod.fst hq)
      · simp [dictErase, dictFind, hk, ih h.2]

theorem dictErase_sublist (d : List (Nat × Nat)) (k : Nat) :
    (dictErase d k).Sublist d := by
  induction d with
  | nil => simp [dictErase]
  | cons p rest ih =>
      obtain ⟨k', v'⟩ := p
      by_cases hk : k' = k
      · rw [show dictErase ((k', v') :: rest) k = rest by simp [dictErase, hk]]
        exact List.sublist_cons_self (k', v') rest
      · simpa [dictErase, hk] using ih.cons₂ (k', v')

theorem mem_of_mem_dictErase {d : List (Nat × Nat)} {k : Nat} {p : Nat × Nat}
    (h : p ∈ dictErase d k) : p ∈ d :=
  (dictErase_sublist d k).mem h

theorem mem_dictInsert {d : List (Nat × Nat)} {k v : Nat} {p : Nat × Nat}
    (h : p ∈ dictInsert d k v) : p ∈ d ∨ p = (k, v) := by
  induction d with
  | nil => simpa [dictInsert] using h
  | cons q rest ih =>
      obtain ⟨k', v'⟩ := q
      by_cases hk : k' = k
      · simp only [dictInsert, if_pos hk, List.mem_cons] at h
        rcases h with h | h
        · exact Or.inr h
        · exact Or.inl (List.mem_cons_of_mem _ h)
      · simp only [dictInsert, if_neg hk, List.mem_cons] at h
        rcases h with h | h
        · exact Or.inl (h ▸ List.mem_cons_self _ _)
        · rcases ih h with h' | h'
          · exact Or.inl (List.mem_cons_of_mem _ h')
          · exact Or.inr h'

theorem keys_nodup_dictInsert (d : List (Nat × Nat)) (k v : Nat)
    (h : (d.map Prod.fst).Nodup) : ((dictInsert d k v).map Prod.fst).Nodup := by
  induction d with
  | nil => simp [dictInsert]
  | cons p rest ih =>
      obtain ⟨k', v'⟩ := p
      simp only [List.map_cons, List.nodup_cons] at h
      by_cases hk : k' = k
      · have hred : dictInsert ((k', v') :: rest) k v = (k, v) :: rest := by
          simp [dictInsert, hk]
        rw [hred, List.map_cons, List.nodup_cons]
        exact ⟨by rw [← hk]; exact h.1, h.2⟩
      · have hred : dictInsert ((k', v') :: rest) k v
            = (k', v') :: dictInsert rest k v := by
          simp [dictInsert, hk]
        rw [hred, List.map_cons, List.nodup_cons]
        refine ⟨?_, ih h.2⟩
        intro hmem
        rcases List.mem_map.mp hmem with ⟨q, hq, hq1⟩
        rcases mem_dictInsert hq with h' | h'
        · exact h.1 (by simpa [hq1] using List.mem_map_of_mem Prod.fst h')
        · apply hk
          rw [h'] at hq1
          simpa using hq1.symm

theorem keys_nodup_dictErase (d : List (Nat × Nat)) (k : Nat)
    (h : (d.map Prod.fst).Nodup) : ((dictErase d k).map Prod.fst).Nodup :=
  h.sublist ((dictErase_sublist d k).map Prod.fst)

theorem dictFind_mem {d : List (Nat × Nat)} {k v : Nat}
    (h : dictFind d k = some v) : (k, v) ∈ d := by
  induction d with
  | nil => simp [dictFind] at h
  | cons p rest ih =>
      obtain ⟨k', v'⟩ := p
      by_cases hk : k' = k
      · subst hk
        simp [dictFind] at h
        rw [← h]
        exact List.mem_cons_self _ _
      · simp only [dictFind, if_neg hk] at h
        exact List.mem_cons_of_mem _ (ih h)

theorem dictFind_none_of_erase {d : List (Nat × Nat)} {k x : Nat}
    (h : dictFind d x = none) : dictFind (dictErase d k) x = none := by
  rw [dictFind_eq_none_iff] at h ⊢
  exact fun p hp => h p (mem_of_mem_dictErase hp)

/-! ### Component lemmas for the manager operations -/

theorem disconnect_of_found (s : ManagerState) (ws cid : Nat)
    (h : dictFind s.ws_to_id ws = some cid) :
    disconnect s ws =
      ⟨s.connections.erase ws, dictErase s.ws_to_id ws, s.redis.erase cid, s.nextId⟩ := by
  simp [disconnect, disconnectT, h]

theorem disconnect_of_not_found (s : ManagerState) (ws : Nat)
    (h : dictFind s.ws_to_id ws = none) :
    disconnect s ws =
      ⟨s.connections.erase ws, dictErase s.ws_to_id ws, s.redis, s.nextId⟩ := by
  simp [disconnect, disconnectT, h]

theorem disconnect_connections (s : ManagerState) (ws : Nat) :
    (disconnect s ws).connections = s.connections.erase ws := by
  rcases h : dictFind s.ws_to_id ws with _ | cid
  · rw [disconnect_of_not_found s ws h]
  · rw [disconnect_of_found s ws cid h]

theorem disconnect_ws_to_id (s : ManagerState) (ws : Nat) :
    (disconnect s ws).ws_to_id = dictErase s.ws_to_id ws := by
  rcases h : dictFind s.ws_to_id ws with _ | cid
  · rw [disconnect_of_not_found s ws h]
  · rw [disconnect_of_found s ws cid h]

theorem disconnect_nextId (s : ManagerState) (ws : Nat) :
    (disconnect s ws).nextId = s.nextId := by
  rcases h : dictFind s.ws_to_id ws with _ | cid
  · rw [disconnect_of_not_found s ws h]
  · rw [disconnect_of_found s ws cid h]

theorem disconnect_redis_not_mem (s : ManagerState) (ws : Nat) {i : Nat}
    (h : i ∉ s.redis) : i ∉ (disconnect s ws).redis := by
  rcases hf : dictFind s.ws_to_id ws with _ | cid
  · rw [disconnect_of_not_found s ws hf]
    exact h
  · rw [disconnect_of_found s ws cid hf]
    exact fun hmem => h ((s.redis.erase_sublist cid).mem hmem)

theorem disconnect_tidy {s : ManagerState} (h : tidy s) (ws : Nat) :
    tidy (disconnect s ws) := by
  obtain ⟨h1, h2, h3⟩ := h
  refine ⟨?_, ?_, ?_⟩
  · rw [disconnect_connections]
    exact h1.erase ws
  · rw [disconnect_ws_to_id]
    exact keys_nodup_dictErase _ ws h2
  · rcases hf : dictFind s.ws_to_id ws with _ | cid
    · rw [disconnect_of_not_found s ws hf]
      exact h3
    · rw [disconnect_of_found s ws cid hf]
      exact h3.erase cid

theorem disconnect_mem_connections_iff {s : ManagerState} {ws x : Nat}
    (h : x ≠ ws) :
    (x ∈ (disconnect s ws).connections ↔ x ∈ s.connections) := by
  rw [disconnect_connections]
  exact List.mem_erase_of_ne h

theorem disconnect_dictFind_ne (s : ManagerState) {ws x : Nat} (h : x ≠ ws) :
    dictFind (disconnect s ws).ws_to_id x = dictFind s.ws_to_id x := by
  rw [disconnect_ws_to_id]
  exact dictFind_erase_ne _ ws x h

/-! ### C2: idempotence of disconnect -/

/-- Claim C2 counterexample: on the registry state reached by connecting the
same socket twice (which `connect` permits), a second `disconnect` does not
leave the local registry in the same state as the first one — the first call
removes the mapping entry but only one of the two list entries, so the second
call still removes a socket.  Hence `disconnect` is not idempotent on every
registry state. -/
theorem disconnect_not_idempotent_on_dup :
    disconnect (disconnect (connect (connect initState 0) 0) 0) 0 ≠
      disconnect (connect (connect initState 0) 0) 0 := by decide

/-- Claim C2 (amended): on every registry state whose mapping has no repeated
keys and whose ordered collection holds the socket at most once (true of all
states reachable without double-registering a socket), `disconnect` is
idempotent — the second call changes neither registry — and a `disconnect` of
an unknown socket changes neither registry. -/
theorem disconnect_idempotent (s : ManagerState) (ws : Nat)
    (h1 : (s.ws_to_id.map Prod.fst).Nodup)
    (h2 : s.connections.count ws ≤ 1) :
    disconnect (disconnect s ws) ws = disconnect s ws ∧
    (ws ∉ s.connections → dictFind s.ws_to_id ws = none → disconnect s ws = s) := by
  constructor
  · have hfind : dictFind (disconnect s ws).ws_to_id ws = none := by
      rw [disconnect_ws_to_id]
      exact dictFind_erase_self _ ws h1
    have hmem : ws ∉ (disconnect s ws).connections := by
      rw [disconnect_connections]
      have hc : (s.connections.erase ws).count ws = 0 := by
        rw [List.count_erase_self]
        omega
      exact List.count_eq_zero.mp hc
    rw [disconnect_of_not_found _ _ hfind, List.erase_of_not_mem hmem,
        dictErase_of_none _ _ hfind]
  · intro hm hf
    rw [disconnect_of_not_found _ _ hf, List.erase_of_not_mem hm,
        dictErase_of_none _ _ hf]

/-- Witness for C2's amended theorem at a concrete two-socket state. -/
theorem disconnect_idempotent_witness :
    (((connect (connect initState 0) 1).ws_to_id.map Prod.fst).Nodup ∧
      (connect (connect initState 0) 1).connections.count 0 ≤ 1) ∧
    (disconnect (disconnect (connect (connect initState 0) 1) 0) 0 =
        disconnect (connect (connect initState 0) 1) 0 ∧
      (0 ∉ (connect (connect initState 0) 1).connections →
        dictFind (connect (connect initState 0) 1).ws_to_id 0 = none →
        disconnect (connect (connect initState 0) 1) 0 =
          connect (connect initState 0) 1)) :=
  ⟨⟨by decide, by decide⟩, disconnect_idempotent _ 0 (by decide) (by decide)⟩

/-! ### C3: double registration -/

/-- Claim C3 counterexample: `connect` has no guard against an
already-registered socket.  Connecting socket `0` twice from a fresh manager
leaves two entries in the ordered collection, rebinds the mapping from the
first identifier `0` to the fresh identifier `1`, and leaves both identifiers
in the Redis set. -/
theorem connect_double_registers :
    (connect (connect initState 0) 0).connections = [0, 0] ∧
    dictFind (connect initState 0).ws_to_id 0 = some 0 ∧
    dictFind (connect (connect initState 0) 0).ws_to_id 0 = some 1 ∧
    (connect (connect initState 0) 0).redis = [0, 1] := by decide

/-- Claim C3 (amended): `connect` performs no double-registration check — on
any state whose identifiers are fresh-bounded and mirrored in the Redis set,
a second `connect` on an already-registered socket appends a second entry to
the ordered collection, rebinds the socket's mapping entry to the fresh
identifier, and adds the fresh identifier to the distributed registry while
the previously-bound identifier stays behind in it. -/
theorem connect_rebinds_registered (s : ManagerState) (ws : Nat)
    (h1 : ws ∈ s.connections)
    (h2 : ∀ i ∈ s.redis, i < s.nextId)
    (h3 : ∀ p ∈ s.ws_to_id, p.2 ∈ s.redis) :
    1 ≤ s.connections.count ws ∧
    (connect s ws).connections.count ws = s.connections.count ws + 1 ∧
    dictFind (connect s ws).ws_to_id ws = some s.nextId ∧
    (connect s ws).redis = s.redis ++ [s.nextId] ∧
    (∀ i, dictFind s.ws_to_id ws = some i →
      i ≠ s.nextId ∧ i ∈ (connect s ws).redis) := by
  have hfresh : s.nextId ∉ s.redis := fun hm => absurd (h2 _ hm) (lt_irrefl _)
  have hredis : (connect s ws).redis = s.redis ++ [s.nextId] := by
    show sadd s.redis s.nextId = _
    rw [sadd, if_neg hfresh]
  refine ⟨?_, ?_, dictFind_insert_self _ _ _, hredis, ?_⟩
  · have : s.connections.count ws ≠ 0 :=
      fun hc => (List.count_eq_zero.mp hc) h1
    omega
  · show (s.connections ++ [ws]).count ws = _
    rw [List.count_append]
    simp
  · intro i hi
    have hir : i ∈ s.redis := h3 _ (dictFind_mem hi)
    refine ⟨fun he => hfresh (he ▸ hir), ?_⟩
    rw [hredis]
    exact List.mem_append_left _ hir

/-- Witness for C3's amended theorem on the one-socket state. -/
theorem connect_rebinds_registered_witness :
    (0 ∈ (connect initState 0).connections ∧
      (∀ i ∈ (connect initState 0).redis, i < (connect initState 0).nextId) ∧
      (∀ p ∈ (connect initState 0).ws_to_id, p.2 ∈ (connect initState 0).redis)) ∧
    (1 ≤ (connect initState 0).connections.count 0 ∧
      (connect (connect initState 0) 0).connections.count 0 =
        (connect initState 0).connections.count 0 + 1 ∧
      dictFind (connect (connect initState 0) 0).ws_to_id 0 =
        some (connect initState 0).nextId ∧
      (connect (connect initState 0) 0).redis =
        (connect initState 0).redis ++ [(connect initState 0).nextId] ∧
      (∀ i, dictFind (connect initState 0).ws_to_id 0 = some i →
        i ≠ (connect initState 0).nextId ∧
        i ∈ (connect (connect initState 0) 0).redis)) :=
  ⟨⟨by decide, by decide, by decide⟩,
    connect_rebinds_registered _ 0 (by decide) (by decide) (by decide)⟩

/-! ### C10: the unknown-socket disconnect still hits the shared store -/

/-- Claim C10: disconnecting a socket that is not registered leaves the
manager state (both registries) unchanged, yet still issues exactly one
shared-store call — the `SCARD` behind the log-only `global_active_count()`
at line 94 — so even the no-op disconnect suspends on a Redis round trip and
is exposed to shared-store failure; it is not a pure local no-op. -/
theorem noop_disconnect_queries_store (s : ManagerState) (ws : Nat)
    (h1 : ws ∉ s.connections) (h2 : dictFind s.ws_to_id ws = none) :
    (disconnectT s ws).1 = s ∧ (disconnectT s ws).2 = [RedisCall.scard] := by
  refine ⟨?_, ?_⟩
  · show (disconnectT s ws).1 = s
    simp only [disconnectT, h2]
    rw [List.erase_of_not_mem h1, dictErase_of_none _ _ h2]
  · simp [disconnectT, h2]

/-- Witness for C10 at a concrete state with one registered socket. -/
theorem noop_disconnect_queries_store_witness :
    (5 ∉ (connect initState 0).connections ∧
      dictFind (connect initState 0).ws_to_id 5 = none) ∧
    ((disconnectT (connect initState 0) 5).1 = connect initState 0 ∧
      (disconnectT (connect initState 0) 5).2 = [RedisCall.scard]) :=
  ⟨⟨by decide, by decide⟩, noop_disconnect_queries_store _ 5 (by decide) (by decide)⟩

/-! ### C9: startup resets distributed state -/

/-- Claim C9: whatever stale identifiers the connection-set key held from a
previous run, the startup sequence deletes the key before constructing the
`ConnectionManager`, so `global_active_count` is `0` after startup and before
any `connect` (and the local registry starts empty as well). -/
theorem startup_resets_global_count (stale : List Nat) :
    global_active_count (setup_lifespan stale) = 0 ∧
    local_active_count (setup_lifespan stale) = 0 :=
  ⟨rfl, rfl⟩

/-! ### C8: health endpoint under shared-store failure -/

/-- Claim C8 is contradicted by the code: when the shared store is
unreachable the `try` in `health` swallows the `ping` failure, but the
`global_active_count()` call at routes.py line 105 sits outside every `try`,
so its exception escapes and the endpoint fails instead of answering
`degraded`.  The endpoint answers `degraded` only when the count query
succeeds while ping reported the store unhealthy. -/
theorem health_fails_when_store_down :
    health none none = HealthResult.error ∧
    health none (some 0) = HealthResult.degraded 0 ∧
    health (some false) (some 3) = HealthResult.degraded 3 :=
  ⟨rfl, rfl, rfl⟩

/-! ### C4: the Local Registry invariant -/

/-- Claim C4 counterexample: the call sequence connect 0, connect 0,
disconnect 0 (legal at the `ConnectionManager` interface, since `connect`
does not reject a registered socket) ends in a state where socket `0` is
still in the ordered collection but has no mapping entry — the invariant
fails for unrestricted call sequences. -/
theorem local_inv_broken_by_double_connect :
    ¬ localInv (run [Op.conn 0, Op.conn 0, Op.disc 0] initState) := by decide

theorem bcastStep_sent {fate : Nat → SendResult} {ws : Nat} (s : ManagerState)
    (h : fate ws = SendResult.sent) : bcastStep fate s ws = s := by
  simp [bcastStep, h]

theorem bcastStep_fail {fate : Nat → SendResult} {ws : Nat} (s : ManagerState)
    (h : fate ws ≠ SendResult.sent) : bcastStep fate s ws = disconnect s ws := by
  cases hf : fate ws
  · exact absurd hf h
  all_goals simp [bcastStep, hf]

theorem broadcastGoT_nil (fate : Nat → SendResult) (s : ManagerState) :
    broadcastGoT fate [] s = (s, []) := rfl

theorem broadcastGoT_cons_fst (fate : Nat → SendResult) (ws : Nat)
    (rest : List Nat) (s : ManagerState) :
    (broadcastGoT fate (ws :: rest) s).1
      = (broadcastGoT fate rest (bcastStep fate s ws)).1 := rfl

theorem broadcastGoT_cons_snd (fate : Nat → SendResult) (ws : Nat)
    (rest : List Nat) (s : ManagerState) :
    (broadcastGoT fate (ws :: rest) s).2
      = ws :: (broadcastGoT fate rest (bcastStep fate s ws)).2 := rfl

theorem connect_regInv {s : ManagerState} (h : regInv s) {ws : Nat}
    (hws : ws ∉ s.connections) : regInv (connect s ws) := by
  obtain ⟨h1, h2, hinv⟩ := h
  refine ⟨?_, ?_, ?_, ?_⟩
  · have hdis : s.connections.Disjoint [ws] := by
      intro a ha hb
      rw [List.mem_singleton] at hb
      subst hb
      exact hws ha
    exact h1.append (List.nodup_singleton ws) hdis
  · exact keys_nodup_dictInsert _ ws s.nextId h2
  · intro x hx
    rcases List.mem_append.mp hx with hx | hx
    · have hxws : x ≠ ws := fun he => hws (he ▸ hx)
      show (dictFind (dictInsert s.ws_to_id ws s.nextId) x).isSome = true
      rw [dictFind_insert_ne _ _ _ _ hxws]
      exact hinv.1 x hx
    · rw [List.mem_singleton] at hx
      subst hx
      show (dictFind (dictInsert s.ws_to_id x s.nextId) x).isSome = true
      rw [dictFind_insert_self]
      rfl
  · intro p hp
    rcases mem_dictInsert hp with hp | hp
    · exact List.mem_append_left _ (hinv.2 p hp)
    · subst hp
      exact List.mem_append_right _ (List.mem_singleton_self ws)

theorem disconnect_regInv {s : ManagerState} (h : regInv s) (ws : Nat) :
    regInv (disconnect s ws) := by
  obtain ⟨h1, h2, hinv⟩ := h
  refine ⟨?_, ?_, ?_, ?_⟩
  · rw [disconnect_connections]
    exact h1.erase ws
  · rw [disconnect_ws_to_id]
    exact keys_nodup_dictErase _ ws h2
  · intro x hx
    rw [disconnect_connections] at hx
    have hxws : x ≠ ws := by
      intro he
      subst he
      exact h1.not_mem_erase hx
    have hxl : x ∈ s.connections := (s.connections.erase_sublist ws).mem hx
    rw [disconnect_dictFind_ne s hxws]
    exact hinv.1 x hxl
  · intro p hp
    rw [disconnect_ws_to_id] at hp
    have hpd : p ∈ s.ws_to_id := mem_of_mem_dictErase hp
    have hne : p.1 ≠ ws :=
      (dictFind_eq_none_iff _ ws).mp (dictFind_erase_self _ ws h2) p hp
    rw [disconnect_connections]
    exact (List.mem_erase_of_ne hne).mpr (hinv.2 p hpd)

theorem broadcastGoT_regInv (fate : Nat → SendResult) :
    ∀ (l : List Nat) {s : ManagerState},
      regInv s → regInv (broadcastGoT fate l s).1
  | [], _, h => h
  | ws :: rest, s, h => by
      rw [broadcastGoT_cons_fst]
      apply broadcastGoT_regInv fate rest
      by_cases hf : fate ws = SendResult.sent
      · rw [bcastStep_sent s hf]
        exact h
      · rw [bcastStep_fail s hf]
        exact disconnect_regInv h ws

theorem run_regInv : ∀ (tr : List Op) {s : ManagerState},
    wfTraceB tr s = true → regInv s → regInv (run tr s)
  | [], _, _, h => h
  | Op.conn ws :: rest, s, hwf, h => by
      simp only [wfTraceB, Bool.and_eq_true, Bool.not_eq_true',
        decide_eq_false_iff_not] at hwf
      simp only [run]
      exact run_regInv rest hwf.2 (connect_regInv h hwf.1)
  | Op.disc ws :: rest, s, hwf, h => by
      simp only [wfTraceB] at hwf
      simp only [run]
      exact run_regInv rest hwf (disconnect_regInv h ws)
  | Op.bcast fate :: rest, s, hwf, h => by
      simp only [wfTraceB] at hwf
      simp only [run]
      exact run_regInv rest hwf (broadcastGoT_regInv fate _ h)

/-- Claim C4 (amended): after any sequence of connect, disconnect and
broadcast_local calls from a fresh manager in which every connect targets a
socket not currently registered (the discipline the WebSocket endpoint
follows), the Local Registry invariant holds: a socket is in the ordered
collection iff it has an entry in the mapping. -/
theorem local_inv_preserved (tr : List Op) (h : wfTraceB tr initState = true) :
    localInv (run tr initState) :=
  (run_regInv tr h
    ⟨List.nodup_nil, List.nodup_nil,
      fun x hx => absurd hx (List.not_mem_nil x),
      fun p hp => absurd hp (List.not_mem_nil p)⟩).2.2

/-- Witness for C4's amended theorem on a trace mixing all three calls. -/
theorem local_inv_preserved_witness :
    wfTraceB [Op.conn 0, Op.conn 1,
      Op.bcast (fun ws => if ws = 0 then SendResult.brokenPipe else SendResult.sent),
      Op.disc 1] initState = true ∧
    localInv (run [Op.conn 0, Op.conn 1,
      Op.bcast (fun ws => if ws = 0 then SendResult.brokenPipe else SendResult.sent),
      Op.disc 1] initState) :=
  ⟨by decide, local_inv_preserved _ (by decide)⟩

/-! ### C1: the local count over call sequences -/

theorem run_live_spec : ∀ (tr : List Op) (s : ManagerState) (A : Finset Nat),
    wfTraceB tr s = true → noBcastB tr = true →
    s.connections.Nodup → s.connections.toFinset = A →
    (run tr s).connections.Nodup ∧ (run tr s).connections.toFinset = liveSet tr A
  | [], s, A, _, _, hnd, hA => ⟨hnd, hA⟩
  | Op.conn ws :: rest, s, A, hwf, hnb, hnd, hA => by
      simp only [wfTraceB, Bool.and_eq_true, Bool.not_eq_true',
        decide_eq_false_iff_not] at hwf
      simp only [noBcastB] at hnb
      simp only [run, liveSet]
      apply run_live_spec rest (connect s ws) (insert ws A) hwf.2 hnb
      · have hdis : s.connections.Disjoint [ws] := by
          intro a ha hb
          rw [List.mem_singleton] at hb
          subst hb
          exact hwf.1 ha
        exact hnd.append (List.nodup_singleton ws) hdis
      · show (s.connections ++ [ws]).toFinset = insert ws A
        rw [← hA]
        ext x
        simp [or_comm]
  | Op.disc ws :: rest, s, A, hwf, hnb, hnd, hA => by
      simp only [wfTraceB] at hwf
      simp only [noBcastB] at hnb
      simp only [run, liveSet]
      apply run_live_spec rest (disconnect s ws) (A.erase ws) hwf hnb
      · rw [disconnect_connections]
        exact hnd.erase ws
      · rw [disconnect_connections, ← hA]
        ext x
        simp [List.Nodup.mem_erase_iff hnd, List.mem_toFinset, and_comm]
  | Op.bcast _ :: _, _, _, _, hnb, _, _ => by
      simp [noBcastB] at hnb

/-- Claim C1: over every sequence of connect and disconnect calls on one
fresh manager in which each connect targets a socket not currently
registered, `local_active_count` equals the number of sockets that have been
connected and not yet disconnected. -/
theorem local_count_matches_live_trace (tr : List Op)
    (h1 : wfTraceB tr initState = true) (h2 : noBcastB tr = true) :
    local_active_count (run tr initState) = (liveSet tr ∅).card := by
  obtain ⟨hnd, hset⟩ :=
    run_live_spec tr initState ∅ h1 h2 List.nodup_nil (by simp [initState])
  rw [local_active_count, ← List.toFinset_card_of_nodup hnd, hset]

/-- Witness for C1 on a connect / disconnect / reconnect trace. -/
theorem local_count_matches_live_trace_witness :
    (wfTraceB [Op.conn 0, Op.conn 1, Op.disc 0, Op.conn 2, Op.conn 0]
        initState = true ∧
      noBcastB [Op.conn 0, Op.conn 1, Op.disc 0, Op.conn 2, Op.conn 0] = true) ∧
    local_active_count
        (run [Op.conn 0, Op.conn 1, Op.disc 0, Op.conn 2, Op.conn 0] initState) =
      (liveSet [Op.conn 0, Op.conn 1, Op.disc 0, Op.conn 2, Op.conn 0] ∅).card :=
  ⟨⟨by decide, by decide⟩, local_count_matches_live_trace _ (by decide) (by decide)⟩

/-! ### C5: broadcast_local error handling -/

theorem broadcastGoT_spec (fate : Nat → SendResult) (l : List Nat) :
    ∀ (s : ManagerState),
      l.Nodup → s.connections.Nodup → (s.ws_to_id.map Prod.fst).Nodup →
      s.redis.Nodup →
      ((broadcastGoT fate l s).2 = l) ∧
      (∀ x, x ∉ l →
        ((x ∈ (broadcastGoT fate l s).1.connections ↔ x ∈ s.connections) ∧
          dictFind (broadcastGoT fate l s).1.ws_to_id x = dictFind s.ws_to_id x)) ∧
      (∀ i, i ∉ s.redis → i ∉ (broadcastGoT fate l s).1.redis) ∧
      (∀ ws ∈ l, fate ws ≠ SendResult.sent →
        ws ∉ (broadcastGoT fate l s).1.connections ∧
        dictFind (broadcastGoT fate l s).1.ws_to_id ws = none ∧
        (∀ i, dictFind s.ws_to_id ws = some i →
          i ∉ (broadcastGoT fate l s).1.redis)) ∧
      (∀ ws ∈ l, fate ws = SendResult.sent →
        (ws ∈ (broadcastGoT fate l s).1.connections ↔ ws ∈ s.connections) ∧
        dictFind (broadcastGoT fate l s).1.ws_to_id ws = dictFind s.ws_to_id ws) := by
  induction l with
  | nil =>
      intro s _ _ _ _
      exact ⟨rfl, fun x _ => ⟨Iff.rfl, rfl⟩, fun i hi => hi,
        fun ws hws => absurd hws (List.not_mem_nil ws),
        fun ws hws => absurd hws (List.not_mem_nil ws)⟩
  | cons ws rest ih =>
      intro s hnd hc hk hr
      obtain ⟨hwsrest, hndrest⟩ := List.nodup_cons.mp hnd
      by_cases hf : fate ws = SendResult.sent
      · have hstep : bcastStep fate s ws = s := bcastStep_sent s hf
        obtain ⟨ih2, ihframe, ihredis, ihfail, ihsent⟩ :=
          ih s hndrest hc hk hr
        rw [broadcastGoT_cons_snd, broadcastGoT_cons_fst, hstep]
        refine ⟨?_, ?_, ?_, ?_, ?_⟩
        · rw [ih2]
        · intro x hx
          exact ihframe x (fun hmem => hx (List.mem_cons_of_mem ws hmem))
        · exact ihredis
        · intro w hw hfw
          rcases List.mem_cons.mp hw with hw | hw
          · exact absurd (hw ▸ hfw) (fun hh => hh hf)
          · exact ihfail w hw hfw
        · intro w hw hfw
          rcases List.mem_cons.mp hw with hw | hw
          · subst hw
            exact ihframe w hwsrest
          · exact ihsent w hw hfw
      · have hstep : bcastStep fate s ws = disconnect s ws := bcastStep_fail s hf
        obtain ⟨hc', hk', hr'⟩ := disconnect_tidy ⟨hc, hk, hr⟩ ws
        obtain ⟨ih2, ihframe, ihredis, ihfail, ihsent⟩ :=
          ih (disconnect s ws) hndrest hc' hk' hr'
        rw [broadcastGoT_cons_snd, broadcastGoT_cons_fst, hstep]
        refine ⟨?_, ?_, ?_, ?_, ?_⟩
        · rw [ih2]
        · intro x hx
          have hxws : x ≠ ws := fun he => hx (he ▸ List.mem_cons_self ws rest)
          have hxrest : x ∉ rest := fun hmem => hx (List.mem_cons_of_mem ws hmem)
          obtain ⟨hiff, hfind⟩ := ihframe x hxrest
          exact ⟨hiff.trans (disconnect_mem_connections_iff hxws),
            hfind.trans (disconnect_dictFind_ne s hxws)⟩
        · intro i hi
          exact ihredis i (disconnect_redis_not_mem s ws hi)
        · intro w hw hfw
          rcases List.mem_cons.mp hw with hw | hw
          · subst hw
            have hgone : w ∉ (disconnect s w).connections := by
              rw [disconnect_connections]
              exact hc.not_mem_erase
            have hnone : dictFind (disconnect s w).ws_to_id w = none := by
              rw [disconnect_ws_to_id]
              exact dictFind_erase_self _ w hk
            obtain ⟨hiff, hfind⟩ := ihframe w hwsrest
            refine ⟨fun hmem => hgone (hiff.mp hmem), hfind.trans hnone, ?_⟩
            intro i hi
            apply ihredis
            rw [disconnect_of_found s w i hi]
            exact hr.not_mem_erase
          · have hwws : w ≠ ws := fun he => hwsrest (he ▸ hw)
            obtain ⟨hgone, hnone, hred⟩ := ihfail w hw hfw
            refine ⟨hgone, hnone, ?_⟩
            intro i hi
            apply hred
            rw [disconnect_dictFind_ne s hwws]
            exact hi
        · intro w hw hfw
          rcases List.mem_cons.mp hw with hw | hw
          · exact absurd (hw ▸ hfw) (fun hh => hf hh)
          · have hwws : w ≠ ws := fun he => hwsrest (he ▸ hw)
            obtain ⟨hiff, hfind⟩ := ihsent w hw hfw
            exact ⟨hiff.trans (disconnect_mem_connections_iff hwws),
              hfind.trans (disconnect_dictFind_ne s hwws)⟩

/-- Claim C5: from any tidy registry state, `broadcast_local` attempts a send
to every socket of the snapshot in connect order (a failure never aborts the
loop); every socket whose send raises one of the caught error classes is
disconnected — gone from the ordered collection, the mapping, and (its
identifier) from the distributed registry — and every socket whose send
succeeds stays registered with its mapping entry untouched. -/
theorem broadcast_failures_deregistered (fate : Nat → SendResult)
    (s : ManagerState) (h1 : s.connections.Nodup)
    (h2 : (s.ws_to_id.map Prod.fst).Nodup) (h3 : s.redis.Nodup) :
    (broadcast_local fate s).2 = s.connections ∧
    (∀ ws ∈ s.connections, fate ws = SendResult.sent →
      ws ∈ (broadcast_local fate s).1.connections ∧
      dictFind (broadcast_local fate s).1.ws_to_id ws = dictFind s.ws_to_id ws) ∧
    (∀ ws ∈ s.connections, fate ws ≠ SendResult.sent →
      ws ∉ (broadcast_local fate s).1.connections ∧
      dictFind (broadcast_local fate s).1.ws_to_id ws = none ∧
      (∀ i, dictFind s.ws_to_id ws = some i →
        i ∉ (broadcast_local fate s).1.redis)) := by
  obtain ⟨ha, _, _, hfail, hsent⟩ :=
    broadcastGoT_spec fate s.connections s h1 h1 h2 h3
  refine ⟨ha, ?_, hfail⟩
  intro ws hws hfw
  obtain ⟨hiff, hfind⟩ := hsent ws hws hfw
  exact ⟨hiff.mpr hws, hfind⟩

/-- Witness for C5: two sockets, the first one's send breaks the pipe. -/
theorem broadcast_failures_deregistered_witness :
    ((connect (connect initState 0) 1).connections.Nodup ∧
      ((connect (connect initState 0) 1).ws_to_id.map Prod.fst).Nodup ∧
      (connect (connect initState 0) 1).redis.Nodup) ∧
    ((broadcast_local (fun ws => if ws = 0 then SendResult.brokenPipe else SendResult.sent)
        (connect (connect initState 0) 1)).2 =
      (connect (connect initState 0) 1).connections ∧
    (∀ ws ∈ (connect (connect initState 0) 1).connections,
      (fun ws => if ws = 0 then SendResult.brokenPipe else SendResult.sent) ws
          = SendResult.sent →
      ws ∈ (broadcast_local
          (fun ws => if ws = 0 then SendResult.brokenPipe else SendResult.sent)
          (connect (connect initState 0) 1)).1.connections ∧
      dictFind (broadcast_local
          (fun ws => if ws = 0 then SendResult.brokenPipe else SendResult.sent)
          (connect (connect initState 0) 1)).1.ws_to_id ws =
        dictFind (connect (connect initState 0) 1).ws_to_id ws) ∧
    (∀ ws ∈ (connect (connect initState 0) 1).connections,
      (fun ws => if ws = 0 then SendResult.brokenPipe else SendResult.sent) ws
          ≠ SendResult.sent →
      ws ∉ (broadcast_local
          (fun ws => if ws = 0 then SendResult.brokenPipe else SendResult.sent)
          (connect (connect initState 0) 1)).1.connections ∧
      dictFind (broadcast_local
          (fun ws => if ws = 0 then SendResult.brokenPipe else SendResult.sent)
          (connect (connect initState 0) 1)).1.ws_to_id ws = none ∧
      (∀ i, dictFind (connect (connect initState 0) 1).ws_to_id ws = some i →
        i ∉ (broadcast_local
            (fun ws => if ws = 0 then SendResult.brokenPipe else SendResult.sent)
            (connect (connect initState 0) 1)).1.redis))) :=
  ⟨⟨by decide, by decide, by decide⟩,
    broadcast_failures_deregistered _ _ (by decide) (by decide) (by decide)⟩

/-! ### C6: termination of the shutdown drain loop -/

theorem drainLoopF_total (counts : Nat → Nat) (timeout interval : Nat) :
    ∀ (f k : Nat), timeout ≤ (k + f) * interval →
      (∀ j, j < k → counts j ≠ 0 ∧ j * interval < timeout) →
      ∃ kf, (∀ j, j < kf → counts j ≠ 0 ∧ j * interval < timeout) ∧
        ((counts kf = 0 ∧
            drainLoopF counts timeout interval (f + 1) k
              = some (DrainExit.drained kf)) ∨
          (counts kf ≠ 0 ∧ timeout ≤ kf * interval ∧
            drainLoopF counts timeout interval (f + 1) k
              = some (DrainExit.forced (counts kf) kf)))
  | 0, k, hto, hpre => by
      by_cases hz : counts k = 0
      · exact ⟨k, hpre, Or.inl ⟨hz, by simp [drainLoopF, hz]⟩⟩
      · have ht : timeout ≤ k * interval := by simpa using hto
        exact ⟨k, hpre, Or.inr ⟨hz, ht, by simp [drainLoopF, hz, ht]⟩⟩
  | f + 1, k, hto, hpre => by
      by_cases hz : counts k = 0
      · exact ⟨k, hpre, Or.inl ⟨hz, by simp [drainLoopF, hz]⟩⟩
      · by_cases ht : timeout ≤ k * interval
        · exact ⟨k, hpre, Or.inr ⟨hz, ht, by simp [drainLoopF, hz, ht]⟩⟩
        · have hto' : timeout ≤ ((k + 1) + f) * interval := by
            have harr : (k + 1) + f = k + (f + 1) := by omega
            rw [harr]
            exact hto
          have hpre' : ∀ j, j < k + 1 → counts j ≠ 0 ∧ j * interval < timeout := by
            intro j hj
            rcases Nat.lt_or_ge j k with hjk | hjk
            · exact hpre j hjk
            · have hjeq : j = k := by omega
              subst hjeq
              exact ⟨hz, Nat.lt_of_not_le ht⟩
          obtain ⟨kf, hkfpre, hkf⟩ :=
            drainLoopF_total counts timeout interval f (k + 1) hto' hpre'
          refine ⟨kf, hkfpre, ?_⟩
          have hred : drainLoopF counts timeout interval (f + 1 + 1) k
              = drainLoopF counts timeout interval (f + 1) (k + 1) := by
            simp [drainLoopF, hz, ht]
          rw [hred]
          exact hkf

/-- Claim C6: for every trace of global counts and positive log interval, the
drain loop terminates: there is a first query index `kf` before which every
query saw a nonzero count with the deadline still ahead, and at `kf` the loop
exits — normally (count zero, logged at info) or forced (deadline reached
with a nonzero count, logged at warning, not raised) — and in either case
`shutdown_lifespan` then performs the remaining shutdown steps
unconditionally. -/
theorem drain_loop_terminates (counts : Nat → Nat) (timeout interval : Nat)
    (hpos : 0 < interval) :
    ∃ kf, (∀ j, j < kf → counts j ≠ 0 ∧ j * interval < timeout) ∧
      ((counts kf = 0 ∧
          shutdown_lifespan counts timeout interval
            = some (DrainExit.drained kf, shutdownSteps) ∧
          drainExitLog (DrainExit.drained kf) = LogLevel.info) ∨
        (counts kf ≠ 0 ∧ timeout ≤ kf * interval ∧
          shutdown_lifespan counts timeout interval
            = some (DrainExit.forced (counts kf) kf, shutdownSteps) ∧
          drainExitLog (DrainExit.forced (counts kf) kf) = LogLevel.warning)) := by
  have hdiv : timeout < (timeout / interval + 1) * interval :=
    (Nat.div_lt_iff_lt_mul hpos).mp (Nat.lt_succ_self _)
  have hto : timeout ≤ (0 + (timeout / interval + 1)) * interval := by
    rw [Nat.zero_add]
    exact Nat.le_of_lt hdiv
  obtain ⟨kf, hpre, hkf⟩ :=
    drainLoopF_total counts timeout interval (timeout / interval + 1) 0 hto
      (fun j hj => absurd hj (Nat.not_lt_zero j))
  refine ⟨kf, hpre, ?_⟩
  rcases hkf with ⟨hz, heq⟩ | ⟨hz, ht, heq⟩
  · left
    have heq2 : drainLoopF counts timeout interval (timeout / interval + 2) 0
        = some (DrainExit.drained kf) := heq
    rw [shutdown_lifespan, heq2, Option.map_some']
    exact ⟨hz, rfl, rfl⟩
  · right
    have heq2 : drainLoopF counts timeout interval (timeout / interval + 2) 0
        = some (DrainExit.forced (counts kf) kf) := heq
    rw [shutdown_lifespan, heq2, Option.map_some']
    exact ⟨hz, ht, rfl, rfl⟩

/-- Witness for C6: three clients that all disconnect before the third query,
with the default 30s timeout and 5s log interval. -/
theorem drain_loop_terminates_witness :
    0 < 5 ∧
    (∃ kf, (∀ j, j < kf → (fun k => if k < 2 then 3 else 0) j ≠ 0 ∧ j * 5 < 30) ∧
      (((fun k => if k < 2 then 3 else 0) kf = 0 ∧
          shutdown_lifespan (fun k => if k < 2 then 3 else 0) 30 5
            = some (DrainExit.drained kf, shutdownSteps) ∧
          drainExitLog (DrainExit.drained kf) = LogLevel.info) ∨
        ((fun k => if k < 2 then 3 else 0) kf ≠ 0 ∧ 30 ≤ kf * 5 ∧
          shutdown_lifespan (fun k => if k < 2 then 3 else 0) 30 5
            = some (DrainExit.forced ((fun k => if k < 2 then 3 else 0) kf) kf,
                shutdownSteps) ∧
          drainExitLog (DrainExit.forced ((fun k => if k < 2 then 3 else 0) kf) kf)
            = LogLevel.warning))) :=
  ⟨by decide, drain_loop_terminates _ 30 5 (by decide)⟩

/-! ### C7: the broadcast relay loop -/

theorem listenerLoop_spec (stop : Nat → Bool) (polls : Nat → Option Nat) :
    ∀ (n k : Nat), (∀ j, j < n → stop (k + j) = false) → stop (k + n) = true →
      listenerLoop stop polls (n + 1) k
        = some ((List.range' k n).filterMap polls)
  | 0, k, _, hstop => by
      simp only [Nat.add_zero] at hstop
      simp [listenerLoop, hstop, List.range']
  | n + 1, k, hpre, hstop => by
      have hk : stop k = false := by simpa using hpre 0 (Nat.succ_pos n)
      have hpre' : ∀ j, j < n → stop ((k + 1) + j) = false := by
        intro j hj
        have hh := hpre (j + 1) (by omega)
        have harr : k + (j + 1) = (k + 1) + j := by omega
        rw [harr] at hh
        exact hh
      have hstop' : stop ((k + 1) + n) = true := by
        have harr : (k + 1) + n = k + (n + 1) := by omega
        rw [harr]
        exact hstop
      have ihres := listenerLoop_spec stop polls n (k + 1) hpre' hstop'
      have hrange : List.range' k (n + 1) = k :: List.range' (k + 1) n := rfl
      rw [hrange]
      cases hp : polls k with
      | none =>
          have hred : listenerLoop stop polls (n + 1 + 1) k
              = listenerLoop stop polls (n + 1) (k + 1) := by
            simp [listenerLoop, hk, hp]
          rw [hred, ihres]
          simp [List.filterMap_cons, hp]
      | some m =>
          have hred : listenerLoop stop polls (n + 1 + 1) k
              = (listenerLoop stop polls (n + 1) (k + 1)).map (fun rest => m :: rest) := by
            simp [listenerLoop, hk, hp]
          rw [hred, ihres, Option.map_some']
          simp [List.filterMap_cons, hp]

/-- Claim C7: the relay loop checks the stop signal once per iteration and,
when the signal first becomes set at iteration `n`, exits there — it performs
exactly the `n` polls at iterations `0..n-1`, forwards to `broadcast_local`
exactly the payloads received before the signal, unchanged and in order
(poll timeouts contribute nothing and have no side effect), and never
forwards a message after the signal; fuel `n + 1` suffices, i.e. it stops at
most one poll step after the signal. -/
theorem listener_forwards_until_stop (stop : Nat → Bool) (polls : Nat → Option Nat)
    (n : Nat) (h1 : ∀ j, j < n → stop j = false) (h2 : stop n = true) :
    listenerLoop stop polls (n + 1) 0 = some ((List.range' 0 n).filterMap polls) := by
  apply listenerLoop_spec stop polls n 0
  · intro j hj
    simpa using h1 j hj
  · simpa using h2

/-- Witness for C7: the signal rises at iteration 2; one message arrives at
iteration 0, iteration 1 is a poll timeout. -/
theorem listener_forwards_until_stop_witness :
    ((∀ j, j < 2 → (fun i => decide (2 ≤ i)) j = false) ∧
      (fun i => decide (2 ≤ i)) 2 = true) ∧
    listenerLoop (fun i => decide (2 ≤ i))
        (fun i => if i = 0 then some 7 else none) (2 + 1) 0
      = some ((List.range' 0 2).filterMap (fun i => if i = 0 then some 7 else none)) :=
  ⟨⟨by decide, by decide⟩,
    listener_forwards_until_stop _ _ 2 (by decide) (by decide)⟩

end WsShutdown
